import Mathlib

/-!
Verification of the spider TIA core against its specification.

The C++ sources are shallowly embedded:

* `std::string_view` values handled by the DICOM parsers become `List Char`
  (`remove_prefix` becomes `List.drop`);
* `bool Parse...(v, out)` functions with an output parameter become
  `Option`-returning functions (`none` = the C++ function returned `false`
  and left the output untouched);
* `std::expected<T, E>` becomes `Except E T`;
* `double` arithmetic is modelled over `ℝ`; where IEEE-754 produces a value
  that is not a real number (NaN from 0.0/0.0) the model uses `Option ℝ`
  with `none` for the contaminated result, and the accompanying comment
  proves why that case is exactly the NaN case;
* the IANA time-zone database is an external collaborator and is abstracted
  as a resolution function carried by a `TimeZone` value.
-/

/-! ## Character-level primitives

`std::from_chars` on a two- (or four-) character window: it accepts an
optional leading `'-'` (never `'+'`) followed by decimal digits, and the
call sites additionally require that the whole window was consumed
(`ptr == v.data() + n`) and that no error occurred (at least one digit).
Hence a two-character window parses iff it is two digits, or `'-'`
followed by one digit (giving a non-positive value).  -/

def digitVal (c : Char) : Int :=
  (c.toNat : Int) - 48

/-- `std::from_chars` on the first two characters of `v`, requiring both to
be consumed: two digits, or `'-'` followed by a digit. -/
def fromCharsTwo (v : List Char) : Option Int :=
  match v with
  | c1 :: c2 :: _ =>
      if c1.isDigit ∧ c2.isDigit then some (10 * digitVal c1 + digitVal c2)
      else if c1 = '-' ∧ c2.isDigit then some (-(digitVal c2))
      else none
  | _ => none

/-- `std::from_chars` on the first four characters of `v`, requiring all
four to be consumed: four digits, or `'-'` followed by three digits. -/
def fromCharsFour (v : List Char) : Option Int :=
  match v with
  | c1 :: c2 :: c3 :: c4 :: _ =>
      if c1.isDigit ∧ c2.isDigit ∧ c3.isDigit ∧ c4.isDigit then
        some (1000 * digitVal c1 + 100 * digitVal c2 + 10 * digitVal c3
              + digitVal c4)
      else if c1 = '-' ∧ c2.isDigit ∧ c3.isDigit ∧ c4.isDigit then
        some (-(100 * digitVal c2 + 10 * digitVal c3 + digitVal c4))
      else none
  | _ => none

/-- `ParseYear` (spect.cc): first four characters via `from_chars`,
requiring `out >= 0`. -/
def ParseYear (v : List Char) : Option Int :=
  match fromCharsFour v with
  | some y => if 0 ≤ y then some y else none
  | none => none

/-- `ParseTwoDigits` (spect.cc). -/
def ParseTwoDigits (v : List Char) : Option Int :=
  fromCharsTwo v

/-- `ParseMonthOrDay` (spect.cc): two characters with `out >= 0`. -/
def ParseMonthOrDay (v : List Char) : Option Int :=
  match ParseTwoDigits v with
  | some n => if 0 ≤ n then some n else none
  | none => none

/-- `ParseHour` (spect.cc): two characters with `0 <= out <= 23`. -/
def ParseHour (v : List Char) : Option Int :=
  match ParseTwoDigits v with
  | some n => if 0 ≤ n ∧ n ≤ 23 then some n else none
  | none => none

/-- `ParseMinute` (spect.cc): two characters with `0 <= out <= 59`. -/
def ParseMinute (v : List Char) : Option Int :=
  match ParseTwoDigits v with
  | some n => if 0 ≤ n ∧ n ≤ 59 then some n else none
  | none => none

/-- `ParseSecond` (spect.cc): two characters with `0 <= out <= 60`
(60 permits a leap second). -/
def ParseSecond (v : List Char) : Option Int :=
  match ParseTwoDigits v with
  | some n => if 0 ≤ n ∧ n ≤ 60 then some n else none
  | none => none

/-! ## Parsed / complete calendar values (spect.h) -/

structure DateParsed where
  year : Int
  month : Option Int
  day : Option Int
deriving DecidableEq, Repr

structure TimeParsed where
  hour : Option Int
  minute : Option Int
  second : Option Int
deriving DecidableEq, Repr

structure DateComplete where
  year : Int
  month : Int
  day : Int
deriving DecidableEq, Repr

structure TimeComplete where
  hour : Int
  minute : Int
  second : Int
deriving DecidableEq, Repr

/-- `ParseDicomDate` (spect.cc): `v` must be exactly 8 characters
`YYYYMMDD`; year `>= 0`, month and day each two `from_chars` characters
with value `>= 0`. -/
def ParseDicomDate (v : List Char) : Option DateComplete :=
  if v.length ≠ 8 then none
  else
    match ParseYear v with
    | none => none
    | some y =>
      match ParseMonthOrDay (v.drop 4) with
      | none => none
      | some m =>
        match ParseMonthOrDay (v.drop 6) with
        | none => none
        | some d => some ⟨y, m, d⟩

/-- `ParseDicomTime` (spect.cc): `HH[MM[SS[...]]]`; a remaining length of
exactly 1 after a component is rejected; characters after the `SS`
component are ignored. -/
def ParseDicomTime (v : List Char) : Option TimeParsed :=
  match ParseHour v with
  | none => none
  | some hour =>
    let v1 := v.drop 2
    if v1.length = 1 then none
    else if 2 ≤ v1.length then
      match ParseMinute v1 with
      | none => none
      | some minute =>
        let v2 := v1.drop 2
        if v2.length = 1 then none
        else if 2 ≤ v2.length then
          match ParseSecond v2 with
          | none => none
          | some second => some ⟨some hour, some minute, some second⟩
        else some ⟨some hour, some minute, none⟩
    else some ⟨some hour, none, none⟩

/-- `ParseDicomDateTimeExcludingUtc` (spect.cc):
`YYYY[MM[DD[HH[MM[SS[...]]]]]]`; a remaining length of exactly 1 after a
component is rejected; characters after the `SS` component are ignored
(which is where a UTC offset suffix of a complete value ends up). -/
def ParseDicomDateTimeExcludingUtc (v : List Char) :
    Option (DateParsed × TimeParsed) :=
  match ParseYear v with
  | none => none
  | some year =>
    let v1 := v.drop 4
    if v1.length = 1 then none
    else if 2 ≤ v1.length then
      match ParseMonthOrDay v1 with
      | none => none
      | some month =>
        let v2 := v1.drop 2
        if v2.length = 1 then none
        else if 2 ≤ v2.length then
          match ParseMonthOrDay v2 with
          | none => none
          | some day =>
            let v3 := v2.drop 2
            if v3.length = 1 then none
            else if 2 ≤ v3.length then
              match ParseHour v3 with
              | none => none
              | some hour =>
                let v4 := v3.drop 2
                if v4.length = 1 then none
                else if 2 ≤ v4.length then
                  match ParseMinute v4 with
                  | none => none
                  | some minute =>
                    let v5 := v4.drop 2
                    if v5.length = 1 then none
                    else if 2 ≤ v5.length then
                      match ParseSecond v5 with
                      | none => none
                      | some second =>
                        some (⟨year, some month, some day⟩,
                              ⟨some hour, some minute, some second⟩)
                    else
                      some (⟨year, some month, some day⟩,
                            ⟨some hour, some minute, none⟩)
                else
                  some (⟨year, some month, some day⟩, ⟨some hour, none, none⟩)
            else some (⟨year, some month, some day⟩, ⟨none, none, none⟩)
        else some (⟨year, some month, none⟩, ⟨none, none, none⟩)
    else some (⟨year, none, none⟩, ⟨none, none, none⟩)

/-- `ParseDicomUtcOffset` (spect.cc): at least five characters, a sign,
an hour window, a minute window (both two-character `from_chars` windows
taken from positions 1 and 3; any further characters are never looked at),
`-0000` forbidden, result within [-12*60, +14*60] minutes.  The result is
the signed offset in minutes. -/
def applyUtcSign (sign : Char) (off0 : Int) : Int :=
  if sign = '-' then -off0 else off0

def ParseDicomUtcOffset (v : List Char) : Option Int :=
  if v.length < 5 then none
  else
    match v with
    | sign :: rest =>
      if sign ≠ '+' ∧ sign ≠ '-' then none
      else
        match ParseHour rest with
        | none => none
        | some hour =>
          match ParseMinute (rest.drop 2) with
          | none => none
          | some minute =>
            let off : Int := applyUtcSign sign (hour * 60 + minute)
            if sign = '-' ∧ off = 0 then none
            else if off < -(12 * 60) ∨ 14 * 60 < off then none
            else some off
    | [] => none

example : ParseDicomUtcOffset "+0930".toList = some 570 := by decide
example : ParseDicomUtcOffset "-0500".toList = some (-300) := by decide
example : ParseDicomUtcOffset "-0000".toList = none := by decide
example : ParseDicomUtcOffset "+1500".toList = none := by decide
example : ParseDicomUtcOffset "+09300".toList = some 570 := by decide
example : ParseDicomUtcOffset "--005".toList = some (-5) := by decide
example : ParseDicomTime "07".toList = some ⟨some 7, none, none⟩ := by decide
example : ParseDicomTime "1009".toList = some ⟨some 10, some 9, none⟩ := by
  decide
example : ParseDicomTime "151305".toList = some ⟨some 15, some 13, some 5⟩ := by
  decide
example : ParseDicomTime "030914.0103".toList = some ⟨some 3, some 9, some 14⟩
    := by decide
example : ParseDicomTime "1".toList = none := by decide
example : ParseDicomTime "100".toList = none := by decide
example : ParseDicomTime "10090".toList = none := by decide
example : ParseDicomDate "19930822".toList = some ⟨1993, 8, 22⟩ := by decide
example : ParseDicomDateTimeExcludingUtc "2023+0500".toList = none := by decide
example :
    ParseDicomDateTimeExcludingUtc "20230314094556.30".toList
      = some (⟨2023, some 3, some 14⟩, ⟨some 9, some 45, some 56⟩) := by decide

/-! ## Error taxonomy and local-to-absolute resolution (spect.h / spect.cc) -/

inductive TimePointError where
  | failedDate
  | failedTime
  | failedUtcOffset
  | failedTimezoneOffsetFromUtc
  | failedDateTimeExcludingUtcOffset
  | failedUtcOffsetInDateTime
  | incompleteDate
  | incompleteTime
  | missingTimeZone
  | invalidDate
  | nonexistentLocalTime
deriving DecidableEq, Repr

inductive TimePointId where
  | radiopharmaceuticalStartDateTime
  | acquisitionDateAndTime
  | seriesDateAndTime
deriving DecidableEq, Repr

structure TimePointErrorWithId where
  id : TimePointId
  error : TimePointError
deriving DecidableEq, Repr

/-- `MakeDateComplete` (spect.cc). -/
def MakeDateComplete (d : DateParsed) : Except TimePointError DateComplete :=
  match d.month, d.day with
  | some m, some dd => .ok ⟨d.year, m, dd⟩
  | _, _ => .error .incompleteDate

/-- `MakeTimeComplete` (spect.cc). -/
def MakeTimeComplete (t : TimeParsed) : Except TimePointError TimeComplete :=
  match t.hour, t.minute, t.second with
  | some h, some m, some s => .ok ⟨h, m, s⟩
  | _, _, _ => .error .incompleteTime

/-- Gregorian leap year, as used by `std::chrono::year::is_leap`. -/
def isLeapYear (y : Int) : Bool :=
  y % 4 = 0 ∧ (y % 100 ≠ 0 ∨ y % 400 = 0)

/-- Number of days in month `m` of year `y`
(`std::chrono::year_month_day_last`). -/
def lastDayOfMonth (y m : Int) : Int :=
  if m = 2 then (if isLeapYear y then 29 else 28)
  else if m = 4 ∨ m = 6 ∨ m = 9 ∨ m = 11 then 30
  else 31

/-- `std::chrono::year_month_day::ok()`: year within the representable
range, month 1..12, day 1..last day of the month. -/
def ymdOk (d : DateComplete) : Prop :=
  -32767 ≤ d.year ∧ d.year ≤ 32767 ∧ 1 ≤ d.month ∧ d.month ≤ 12
    ∧ 1 ≤ d.day ∧ d.day ≤ lastDayOfMonth d.year d.month

instance (d : DateComplete) : Decidable (ymdOk d) := by
  unfold ymdOk; infer_instance

/-- Days from the civil date to the Unix epoch
(`std::chrono::local_days{ymd}.time_since_epoch()`, Howard Hinnant's
`days_from_civil`; C++ integer division truncates toward zero). -/
def daysFromCivil (d : DateComplete) : Int :=
  let y := if d.month ≤ 2 then d.year - 1 else d.year
  let era := (if 0 ≤ y then y else y - 399).tdiv 400
  let yoe := y - era * 400
  let mp := if 2 < d.month then d.month - 3 else d.month + 9
  let doy := (153 * mp + 2).tdiv 5 + d.day - 1
  let doe := yoe * 365 + yoe.tdiv 4 - yoe.tdiv 100 + doy
  era * 146097 + doe - 719468

/-- The local time point `local_days{ymd} + hours + minutes + seconds`
as seconds since the epoch of the (zone-less) local clock. -/
def localSecs (d : DateComplete) (t : TimeComplete) : Int :=
  daysFromCivil d * 86400 + t.hour * 3600 + t.minute * 60 + t.second

/-- The IANA time-zone database is an external collaborator (spec section 1
treats it as out of scope).  A `TimeZone` is abstracted by its local-to-sys
resolution: `fromLocal lt` is the Unix time chosen for local time `lt`
(for an ambiguous DST fall-back time the library call already picks the
earlier instant), or `none` when the local time does not exist
(DST spring-forward). -/
structure TimeZone where
  fromLocal : Int → Option Int

/-- `MakeZonedTime` (spect.cc), composed with `zoned_time::get_sys_time`:
validate the calendar date, then resolve the local time in the zone;
ambiguity is resolved to the earlier instant inside `fromLocal`,
nonexistence is an error. -/
def MakeZonedTime (d : DateComplete) (t : TimeComplete) (tz : TimeZone) :
    Except TimePointError Int :=
  if ymdOk d then
    match tz.fromLocal (localSecs d t) with
    | some st => .ok st
    | none => .error .nonexistentLocalTime
  else .error .invalidDate

/-- `MakeSysTimeFromOffset` (spect.cc): validate the calendar date, then
subtract the offset minutes from the local seconds-since-epoch. -/
def MakeSysTimeFromOffset (d : DateComplete) (t : TimeComplete)
    (offset : Int) : Except TimePointError Int :=
  if ymdOk d then .ok (localSecs d t - offset * 60)
  else .error .invalidDate

/-- `MakeSysTimeFromOffsetOrTimeZone` (spect.cc): a non-empty `voffset`
takes precedence (`failedUtcOffset` when it does not parse); otherwise a
time zone is required (`missingTimeZone` when absent). -/
def MakeSysTimeFromOffsetOrTimeZone (date : DateComplete)
    (time : TimeComplete) (voffset : List Char) (tz : Option TimeZone) :
    Except TimePointError Int :=
  if voffset.length ≠ 0 then
    match ParseDicomUtcOffset voffset with
    | none => .error .failedUtcOffset
    | some offset => MakeSysTimeFromOffset date time offset
  else
    match tz with
    | none => .error .missingTimeZone
    | some z => MakeZonedTime date time z

/-- `MakeSysTimeFromDicomDateAndTime` (spect.cc): DA value, TM value that
must complete (hour, minute and second all present), then offset-or-zone
resolution. -/
def MakeSysTimeFromDicomDateAndTime (vdate vtime voffset : List Char)
    (tz : Option TimeZone) : Except TimePointError Int :=
  match ParseDicomDate vdate with
  | none => .error .failedDate
  | some date =>
    match ParseDicomTime vtime with
    | none => .error .failedTime
    | some timeParsed =>
      match MakeTimeComplete timeParsed with
      | .error e => .error e
      | .ok time => MakeSysTimeFromOffsetOrTimeZone date time voffset tz

/-- `datetime.find_first_of("+-")` (spect.cc line 675). -/
def findFirstSign (v : List Char) : Option Nat :=
  v.findIdx? (fun c => c = '+' || c = '-')

/-- `MakeSysTimeFromDicomDateTime` (spect.cc): parse the DT excluding any
UTC suffix, complete date and time, then: if the DT contains a `'+'` or
`'-'` anywhere, parse the suffix from the first such sign as a UTC offset
and use it (`failedUtcOffsetInDateTime` when that fails); otherwise fall
through to offset-or-zone resolution with the sibling `voffset`. -/
def MakeSysTimeFromDicomDateTime (datetime voffset : List Char)
    (tz : Option TimeZone) : Except TimePointError Int :=
  match ParseDicomDateTimeExcludingUtc datetime with
  | none => .error .failedDateTimeExcludingUtcOffset
  | some (dateParsed, timeParsed) =>
    match MakeDateComplete dateParsed with
    | .error e => .error e
    | .ok date =>
      match MakeTimeComplete timeParsed with
      | .error e => .error e
      | .ok time =>
        match findFirstSign datetime with
        | some pos =>
          match ParseDicomUtcOffset (datetime.drop pos) with
          | none => .error .failedUtcOffsetInDateTime
          | some offset => MakeSysTimeFromOffset date time offset
        | none => MakeSysTimeFromOffsetOrTimeZone date time voffset tz

/-! ## The SPECT record (spect.h) -/

/-- `Spect` (spect.h).  String-valued DICOM attributes do not distinguish
an empty value from an absent attribute; numeric attributes use
optionality.  The scalar type of the two numeric fields (`double` in the
source) is a parameter so that the serialization theorems can abstract the
external formatting/parsing pair (`operator<<` at 6 significant figures and
`strtod`); the decay and time-point layer instantiates it with `ℝ`. -/
structure Spect (α : Type) where
  patient_name : String := ""
  radiopharmaceutical_start_date_time : String := ""
  acquisition_date : String := ""
  acquisition_time : String := ""
  series_date : String := ""
  series_time : String := ""
  frame_reference_time : Option α := none
  timezone_offset_from_utc : String := ""
  decay_correction : String := ""
  radionuclide_half_life : Option α := none
deriving DecidableEq, Repr

/-- `MakeAcquisitionSysTime` (spect.h): acquisition DA + TM with the
record's `TimezoneOffsetFromUTC`; a `failedUtcOffset` is remapped to
`failedTimezoneOffsetFromUtc`. -/
def MakeAcquisitionSysTime {α : Type} (s : Spect α) (tz : Option TimeZone) :
    Except TimePointErrorWithId Int :=
  match MakeSysTimeFromDicomDateAndTime s.acquisition_date.toList
      s.acquisition_time.toList s.timezone_offset_from_utc.toList tz with
  | .ok t => .ok t
  | .error e =>
      .error ⟨.acquisitionDateAndTime,
              if e = .failedUtcOffset then .failedTimezoneOffsetFromUtc else e⟩

/-- `MakeRadiopharmaceuticalStartSysTime` (spect.h): the administration DT
with the record's `TimezoneOffsetFromUTC`; a `failedUtcOffset` is remapped
to `failedTimezoneOffsetFromUtc`. -/
def MakeRadiopharmaceuticalStartSysTime {α : Type} (s : Spect α)
    (tz : Option TimeZone) : Except TimePointErrorWithId Int :=
  match MakeSysTimeFromDicomDateTime
      s.radiopharmaceutical_start_date_time.toList
      s.timezone_offset_from_utc.toList tz with
  | .ok t => .ok t
  | .error e =>
      .error ⟨.radiopharmaceuticalStartDateTime,
              if e = .failedUtcOffset then .failedTimezoneOffsetFromUtc else e⟩

/-! ## Decay correction (spect.h) -/

inductive DecayCorrection where
  | kNone
  | kStart
  | kAdmin
deriving DecidableEq, Repr

/-- `ParseDicomDecayCorrection` (spect.h): exact match against the three
DICOM literals, two of which carry the trailing-space padding DICOM
requires for 6-character values. -/
def ParseDicomDecayCorrection (v : String) : Option DecayCorrection :=
  if v = "NONE" then some .kNone
  else if v = "START " then some .kStart
  else if v = "ADMIN " then some .kAdmin
  else none

inductive DecayCorrectionError where
  | missingFrameReferenceTime
  | missingHalfLife
  | invalidDecayCorrection
  | halfLifeLessThanOrEqualToZero
  | unreachable
deriving DecidableEq, Repr

/-- The error sum `std::variant<TimePointErrorWithId, DecayCorrectionError>`
of the decay-factor functions. -/
abbrev DecayError := Sum TimePointErrorWithId DecayCorrectionError

/-- Modelled from the spec: the definitions of `ComputeDecayFactorNone`,
`ComputeDecayFactorAdmin` and `ComputeDecayFactor` are missing from the
sources (spect.h declares them and the driver and tests call them, but no
translation unit in the snapshot defines them).  Per spec section 4.3, the
`"NONE"` branch requires `frame_reference_time` present (else
`MissingFrameReferenceTime`), `radionuclide_half_life` present (else
`MissingHalfLife`) and positive (else `HalfLifeLessThanOrEqualToZero`) and
a resolvable acquisition instant (else the `TimePointError` propagated),
and yields `d = exp(ln 2 * frame_reference_time_s / half_life_s)` with the
frame reference time converted from milliseconds to seconds. -/
noncomputable def ComputeDecayFactorNone (s : Spect ℝ) (tz : Option TimeZone) :
    Except DecayError ℝ :=
  match s.frame_reference_time with
  | none => .error (.inr .missingFrameReferenceTime)
  | some frt =>
    match s.radionuclide_half_life with
    | none => .error (.inr .missingHalfLife)
    | some hl =>
      if hl ≤ 0 then .error (.inr .halfLifeLessThanOrEqualToZero)
      else
        match MakeAcquisitionSysTime s tz with
        | .error e => .error (.inl e)
        | .ok _ => .ok (Real.exp (Real.log 2 * (frt / 1000) / hl))

/-- Modelled from the spec: see `ComputeDecayFactorNone`.  Per spec section
4.3, the `"ADMIN "` branch requires resolvable administration and
acquisition instants (else the `TimePointError` propagated) and
`radionuclide_half_life` present and positive, and yields
`d = exp(-(ln 2) * (acquisition - administration) / half_life_s)`. -/
noncomputable def ComputeDecayFactorAdmin (s : Spect ℝ)
    (tz : Option TimeZone) : Except DecayError ℝ :=
  match MakeRadiopharmaceuticalStartSysTime s tz with
  | .error e => .error (.inl e)
  | .ok administration =>
    match MakeAcquisitionSysTime s tz with
    | .error e => .error (.inl e)
    | .ok acquisition =>
      match s.radionuclide_half_life with
      | none => .error (.inr .missingHalfLife)
      | some hl =>
        if hl ≤ 0 then .error (.inr .halfLifeLessThanOrEqualToZero)
        else
          .ok (Real.exp (-(Real.log 2)
                * ((acquisition : ℝ) - (administration : ℝ)) / hl))

/-- Modelled from the spec: see `ComputeDecayFactorNone`.  Per spec section
4.3, `ComputeDecayFactor` dispatches on `Spect::decay_correction`:
`"NONE"` and `"ADMIN "` defer to the dedicated implementations, `"START "`
yields exactly 1.0 (the reconstruction is already decay-corrected to
series/acquisition start), and any other literal is
`InvalidDecayCorrection`. -/
noncomputable def ComputeDecayFactor (s : Spect ℝ) (tz : Option TimeZone) :
    Except DecayError ℝ :=
  match ParseDicomDecayCorrection s.decay_correction with
  | none => .error (.inr .invalidDecayCorrection)
  | some .kNone => ComputeDecayFactorNone s tz
  | some .kStart => .ok 1.0
  | some .kAdmin => ComputeDecayFactorAdmin s tz

/-! ## Serialization of SPECT records (spect.cc) -/

/-- `GetFirstLine` (spect.cc): everything before the first `'\n'`. -/
def GetFirstLine (s : String) : String :=
  ⟨s.data.takeWhile (fun c => c ≠ '\n')⟩

/-- The numeric line written for an optional numeric field: the formatted
value, or the empty line for an absent value.  `wr` abstracts
`operator<<(std::ostream&, double)` at the stream's default precision of 6
significant figures. -/
def optNumLine {α : Type} (wr : α → String) (o : Option α) : String :=
  match o with
  | some x => wr x
  | none => ""

/-- The lines `WriteSpects` (spect.cc) emits for one record: a blank
separator, then one field per line in the fixed order; string fields are
truncated to their first line, numeric fields use `optNumLine`. -/
def spectLines {α : Type} (wr : α → String) (s : Spect α) : List String :=
  ["",
   GetFirstLine s.patient_name,
   GetFirstLine s.radiopharmaceutical_start_date_time,
   GetFirstLine s.acquisition_date,
   GetFirstLine s.acquisition_time,
   GetFirstLine s.series_date,
   GetFirstLine s.series_time,
   optNumLine wr s.frame_reference_time,
   GetFirstLine s.timezone_offset_from_utc,
   GetFirstLine s.decay_correction,
   optNumLine wr s.radionuclide_half_life]

/-- `WriteSpects` (spect.cc), with the output stream modelled as the list
of lines it receives: the fixed two-line header, then the per-record
lines. -/
def WriteSpects {α : Type} (wr : α → String) (spects : List (Spect α)) :
    List String :=
  "This file was created by Spider."
    :: "If you edit it by hand, you could mess it up."
    :: (spects.map (spectLines wr)).flatten

/-- The record-reading loop of `ReadSpects` (spect.cc), with the input
stream modelled as the list of lines `std::getline` delivers.  Each
iteration consumes one separator line (its content is never inspected),
emplaces a default record, and fills its fields line by line; end of input
mid-record keeps the partially populated record.  `rd` abstracts
`std::strtod`: `none` means no characters were converted, so the optional
field stays absent. -/
def readSpectsLoop {α : Type} (rd : String → Option α) :
    List String → List (Spect α)
  | [] => []
  | [_] => [{}]
  | [_, pn] => [{ patient_name := pn }]
  | [_, pn, rsdt] =>
      [{ patient_name := pn, radiopharmaceutical_start_date_time := rsdt }]
  | [_, pn, rsdt, aqd] =>
      [{ patient_name := pn, radiopharmaceutical_start_date_time := rsdt,
         acquisition_date := aqd }]
  | [_, pn, rsdt, aqd, aqt] =>
      [{ patient_name := pn, radiopharmaceutical_start_date_time := rsdt,
         acquisition_date := aqd, acquisition_time := aqt }]
  | [_, pn, rsdt, aqd, aqt, sed] =>
      [{ patient_name := pn, radiopharmaceutical_start_date_time := rsdt,
         acquisition_date := aqd, acquisition_time := aqt,
         series_date := sed }]
  | [_, pn, rsdt, aqd, aqt, sed, setm] =>
      [{ patient_name := pn, radiopharmaceutical_start_date_time := rsdt,
         acquisition_date := aqd, acquisition_time := aqt,
         series_date := sed, series_time := setm }]
  | [_, pn, rsdt, aqd, aqt, sed, setm, frt] =>
      [{ patient_name := pn, radiopharmaceutical_start_date_time := rsdt,
         acquisition_date := aqd, acquisition_time := aqt,
         series_date := sed, series_time := setm,
         frame_reference_time := rd frt }]
  | [_, pn, rsdt, aqd, aqt, sed, setm, frt, tzo] =>
      [{ patient_name := pn, radiopharmaceutical_start_date_time := rsdt,
         acquisition_date := aqd, acquisition_time := aqt,
         series_date := sed, series_time := setm,
         frame_reference_time := rd frt, timezone_offset_from_utc := tzo }]
  | [_, pn, rsdt, aqd, aqt, sed, setm, frt, tzo, dc] =>
      [{ patient_name := pn, radiopharmaceutical_start_date_time := rsdt,
         acquisition_date := aqd, acquisition_time := aqt,
         series_date := sed, series_time := setm,
         frame_reference_time := rd frt, timezone_offset_from_utc := tzo,
         decay_correction := dc }]
  | _ :: pn :: rsdt :: aqd :: aqt :: sed :: setm :: frt :: tzo :: dc :: hl
      :: rest =>
      { patient_name := pn, radiopharmaceutical_start_date_time := rsdt,
        acquisition_date := aqd, acquisition_time := aqt,
        series_date := sed, series_time := setm,
        frame_reference_time := rd frt, timezone_offset_from_utc := tzo,
        decay_correction := dc, radionuclide_half_life := rd hl }
        :: readSpectsLoop rd rest

/-- `ReadSpects` (spect.cc): skip the two header lines (returning the empty
collection when fewer than two lines exist), then run the record loop. -/
def ReadSpects {α : Type} (rd : String → Option α) (lines : List String) :
    List (Spect α) :=
  match lines with
  | _ :: _ :: rest => readSpectsLoop rd rest
  | _ => []

/-! ## The exponential-fit voxel kernel (tia/exp_fit_functor.h) -/

/-- `ExpFitFunctor` (tia/exp_fit_functor.h): the per-pipeline constant
state set up by `SetTimePoints`. -/
structure ExpFitFunctor where
  num_time_points : Nat := 0
  time_points_mean_s : ℝ := 0
  time_point_deviation_s : List ℝ := []
  slope_denominator_s2 : ℝ := 0

/-- `ExpFitFunctor::SetTimePoints` (tia/exp_fit_functor.h): the argument is
a `std::vector<std::chrono::seconds>`, i.e. integer seconds, each converted
to `double`; the mean, the deviation of each time point from the mean, and
the sum of squared deviations are precomputed. -/
noncomputable def SetTimePoints (time_points : List Int) : ExpFitFunctor :=
  let n := time_points.length
  let mean := (time_points.map fun tp : Int => (tp : ℝ)).sum / (n : ℝ)
  let dev := time_points.map fun tp : Int => (tp : ℝ) - mean
  { num_time_points := n
    time_points_mean_s := mean
    time_point_deviation_s := dev
    slope_denominator_s2 := (dev.map (fun d => d * d)).sum }

open Classical in
/-- `ExpFitFunctor::operator()` (tia/exp_fit_functor.h) on the first
`num_time_points_` entries of the voxel vector `y`.  The one place where
the `double` computation can leave the real numbers is the division
`slope_numerator / slope_denominator_s2_`: when the denominator (a sum of
squared deviations) is 0, every deviation is 0, hence the numerator is
exactly 0 as well (`slope_denominator_zero_numerator_zero` below), and
IEEE-754 0.0/0.0 is NaN; NaN fails the `slope >= 0.0` guard and
contaminates intercept, `exp`, and the final quotient, so the returned
pixel is NaN — modelled as `none`.  In every other case the result is the
real (`some`) value the code computes. -/
noncomputable def ExpFitFunctor.call (f : ExpFitFunctor) (y : List ℝ) :
    Option ℝ :=
  if ∃ yi ∈ y.take f.num_time_points, yi ≤ 0 then some 0
  else
    let logy := (y.take f.num_time_points).map Real.log
    let logy_mean := logy.sum / (f.num_time_points : ℝ)
    let slope_numerator :=
      (List.zipWith (fun d l => d * (l - logy_mean))
        f.time_point_deviation_s logy).sum
    if f.slope_denominator_s2 = 0 then none
    else
      let slope := slope_numerator / f.slope_denominator_s2
      if 0 ≤ slope then some 0
      else
        some (Real.exp (logy_mean - slope * f.time_points_mean_s) / (-slope))

/-! ## The TIA pipeline builder (tia/tia_pipeline.cc) -/

/-- A channel of the compose filter takes its data either directly from
file reader `i` or from scale filter `i`. -/
inductive ComposeInput where
  | reader (i : Nat)
  | scaler (i : Nat)

/-- `TiaFilters` (tia/tia_pipeline.h), described by its construction
parameters: reader `i` is bound to `file_readers[i]`, scale filter `i`
multiplies reader `i`'s output by `scale_factors[i]`, the compose filter's
channel `i` is wired per `compose_inputs[i]`, and the functor filter is the
single consumer of the composer, configured with the time points. -/
structure TiaFilters where
  file_readers : List String
  scale_factors : List ℝ
  compose_inputs : List ComposeInput
  functor : ExpFitFunctor

open Classical in
/-- `PrepareTiaPipeline` (tia/tia_pipeline.cc).  The only argument check in
the function body is `assert(decay_factors.size() == num_images)` before
the scale filters are built; an assertion failure is modelled as `none`.
Channel `i` of the composer takes the reader directly when
`decay_factors[i] == 1.0` exactly, and the scale filter otherwise. -/
noncomputable def PrepareTiaPipeline (input_filenames : List String)
    (time_points : List Int) (decay_factors : List ℝ) : Option TiaFilters :=
  let num_images := input_filenames.length
  if decay_factors.length = num_images then
    some { file_readers := input_filenames
           scale_factors := decay_factors
           compose_inputs := (List.range num_images).map fun i =>
             if decay_factors.getD i 0 = 1 then ComposeInput.reader i
             else ComposeInput.scaler i
           functor := SetTimePoints time_points }
  else none

/-! ## The TIA driver (apps/spider_tia.cc) -/

/-- The `hours_since_administration` vector of the driver
(spider_tia.cc lines 289-298): for each acquisition instant, the
difference to the administration instant in integer seconds
(`std::chrono::sys_seconds` subtraction) divided by `60.0 * 60.0`.  This
very vector is what the driver then passes as the time-points argument of
`PrepareTiaPipeline` (spider_tia.cc lines 317-318). -/
noncomputable def hoursSinceAdministration (administration : Int)
    (acquisition_times : List Int) : List ℝ :=
  acquisition_times.map fun t => ((t - administration : Int) : ℝ) / (60 * 60)

/-! ## Shared helper lemmas -/

theorem list_sum_sq_nonneg (l : List ℝ) : 0 ≤ (l.map fun d => d * d).sum := by
  apply List.sum_nonneg
  intro x hx
  obtain ⟨d, _, rfl⟩ := List.mem_map.mp hx
  exact mul_self_nonneg d

theorem list_sum_sq_eq_zero {l : List ℝ}
    (h : (l.map fun d => d * d).sum = 0) : ∀ d ∈ l, d = 0 := by
  induction l with
  | nil => intro d hd; cases hd
  | cons a l ih =>
    have hrest : 0 ≤ (l.map fun d => d * d).sum := list_sum_sq_nonneg l
    have ha : 0 ≤ a * a := mul_self_nonneg a
    have hsum : a * a + (l.map fun d => d * d).sum = 0 := by
      simpa [List.map_cons, List.sum_cons] using h
    have ha0 : a * a = 0 := by linarith
    have hl0 : (l.map fun d => d * d).sum = 0 := by linarith
    intro d hd
    rcases List.mem_cons.mp hd with rfl | hd
    · exact mul_self_eq_zero.mp ha0
    · exact ih hl0 d hd

/-- When every configured time point equals `c`, the precomputed mean is
`c`, every deviation is 0, and the precomputed slope denominator is 0. -/
theorem setTimePoints_den_zero_of_all_eq {tps : List Int} {c : Int}
    (hne : tps ≠ []) (hall : ∀ a ∈ tps, a = c) :
    (SetTimePoints tps).slope_denominator_s2 = 0 := by
  have hn0 : tps.length ≠ 0 := fun h => hne (List.length_eq_zero.mp h)
  have hn : (tps.length : ℝ) ≠ 0 := Nat.cast_ne_zero.mpr hn0
  have hmean : (tps.map fun tp : Int => (tp : ℝ)).sum / (tps.length : ℝ)
      = (c : ℝ) := by
    have hsum : (tps.map fun tp : Int => (tp : ℝ)).sum
        = (tps.map fun tp : Int => (tp : ℝ)).length • (c : ℝ) := by
      apply List.sum_eq_card_nsmul
      intro x hx
      obtain ⟨a, ha, rfl⟩ := List.mem_map.mp hx
      exact_mod_cast congrArg Int.cast (hall a ha)
    rw [hsum, List.length_map, nsmul_eq_mul, mul_comm, mul_div_assoc,
      div_self hn, mul_one]
  apply List.sum_eq_zero
  intro x hx
  simp only [SetTimePoints] at hx
  rw [hmean] at hx
  obtain ⟨d, hd, rfl⟩ := List.mem_map.mp hx
  obtain ⟨a, ha, rfl⟩ := List.mem_map.mp hd
  rw [hall a ha]
  ring

/-- When the precomputed slope denominator is 0, every configured time
point equals the precomputed mean. -/
theorem setTimePoints_all_eq_mean_of_den_zero {tps : List Int}
    (h : (SetTimePoints tps).slope_denominator_s2 = 0) :
    ∀ a ∈ tps, (a : ℝ) = (SetTimePoints tps).time_points_mean_s := by
  intro a ha
  have hz := list_sum_sq_eq_zero (l := (SetTimePoints tps).time_point_deviation_s)
    (by simpa [SetTimePoints] using h)
  have hmem : (a : ℝ) - (SetTimePoints tps).time_points_mean_s
      ∈ (SetTimePoints tps).time_point_deviation_s := by
    simp only [SetTimePoints]
    exact List.mem_map.mpr ⟨a, ha, rfl⟩
  have := hz _ hmem
  linarith

/-! ## C8 -/

/-- C8: `ParseDicomDecayCorrection` returns a value exactly for the three
literals `"NONE"`, `"START "`, `"ADMIN "` (with DICOM trailing-space
padding), maps each to its enumerator, and rejects everything else — in
particular the space-less `"START"` and `"ADMIN"`. -/
theorem parseDicomDecayCorrection_characterization :
    (∀ v : String, (ParseDicomDecayCorrection v).isSome ↔
        v = "NONE" ∨ v = "START " ∨ v = "ADMIN ")
    ∧ ParseDicomDecayCorrection "NONE" = some .kNone
    ∧ ParseDicomDecayCorrection "START " = some .kStart
    ∧ ParseDicomDecayCorrection "ADMIN " = some .kAdmin
    ∧ ParseDicomDecayCorrection "START" = none
    ∧ ParseDicomDecayCorrection "ADMIN" = none := by
  refine ⟨fun v => ?_, by decide, by decide, by decide, by decide, by decide⟩
  unfold ParseDicomDecayCorrection
  split_ifs with h1 h2 h3 <;> simp_all

/-- Witness for C8 at the concrete literal `"START "`. -/
theorem parseDicomDecayCorrection_characterization_witness :
    (ParseDicomDecayCorrection "START ").isSome :=
  (parseDicomDecayCorrection_characterization.1 "START ").mpr
    (Or.inr (Or.inl rfl))

/-! ## C7 -/

/-- C7: for every SPECT record whose `decay_correction` is the literal
`"START "`, `ComputeDecayFactor` returns exactly 1.0, regardless of every
other field and of the time zone. -/
theorem computeDecayFactor_start (s : Spect ℝ) (tz : Option TimeZone)
    (h : s.decay_correction = "START ") :
    ComputeDecayFactor s tz = .ok 1 := by
  unfold ComputeDecayFactor
  rw [h, show ParseDicomDecayCorrection "START " = some .kStart from rfl]
  norm_num

/-- Witness for C7: a record with `"START "` and every other field absent. -/
theorem computeDecayFactor_start_witness :
    ComputeDecayFactor { decay_correction := "START " } none = .ok 1 :=
  computeDecayFactor_start _ none rfl

/-! ## C1 -/

/-- C1 (failing evaluation): with administration at Unix time 0 and
acquisitions at 21600 s and 43200 s, the time-points vector the driver
builds and passes to `PrepareTiaPipeline` is `{6, 12}` — the elapsed times
in HOURS — and not the elapsed times in seconds `{21600, 43200}` that the
claim (and the builder the driver includes) requires. -/
theorem spiderTia_time_points_are_hours_not_seconds :
    hoursSinceAdministration 0 [21600, 43200] = [6, 12]
      ∧ hoursSinceAdministration 0 [21600, 43200] ≠ [(21600 : ℝ), 43200] := by
  have h1 : hoursSinceAdministration 0 [21600, 43200] = [6, 12] := by
    unfold hoursSinceAdministration
    norm_num
  refine ⟨h1, ?_⟩
  rw [h1]
  simp only [ne_eq, List.cons.injEq, and_imp]
  norm_num

/-! ## C3 -/

/-- C3 (counterexample): a call whose `time_points` length differs from the
other two, and a call with N = 1, both construct a pipeline (`isSome`)
instead of failing an assertion: the only assertion in
`PrepareTiaPipeline` is `decay_factors.size() == num_images`. -/
theorem prepareTiaPipeline_missing_asserts :
    (PrepareTiaPipeline ["a", "b"] [] [1, 1]).isSome = true
      ∧ (PrepareTiaPipeline ["a"] [21600] [1]).isSome = true := by
  constructor <;> rfl

/-- C3 (amended): `PrepareTiaPipeline` aborts on (exactly) a violation of
`decay_factors.size() == input_filenames.size()`; the `time_points` length
and the requirement N >= 2 are documented preconditions that are not
checked, so calls violating only those silently construct a pipeline. -/
theorem prepareTiaPipeline_assert_iff (input_filenames : List String)
    (time_points : List Int) (decay_factors : List ℝ) :
    (PrepareTiaPipeline input_filenames time_points decay_factors).isSome
      ↔ decay_factors.length = input_filenames.length := by
  simp only [PrepareTiaPipeline]
  split_ifs with h <;> simp [h]

/-- Witness for C3 (amended) at a concrete well-formed call. -/
theorem prepareTiaPipeline_assert_iff_witness :
    (PrepareTiaPipeline ["a", "b"] [21600, 43200] [1, 1]).isSome :=
  (prepareTiaPipeline_assert_iff ["a", "b"] [21600, 43200] [1, 1]).mpr rfl

/-- If two configured time points differ, the precomputed slope
denominator is nonzero. -/
theorem setTimePoints_den_ne_zero_of_two_differ {tps : List Int}
    (hdiff : ∃ a ∈ tps, ∃ b ∈ tps, a ≠ b) :
    (SetTimePoints tps).slope_denominator_s2 ≠ 0 := by
  obtain ⟨a, ha, b, hb, hab⟩ := hdiff
  intro h
  have h2 := setTimePoints_all_eq_mean_of_den_zero h
  have hA := h2 a ha
  have hB := h2 b hb
  exact hab (by exact_mod_cast hA.trans hB.symm)

/-- A voxel evaluation with every sample positive and a zero slope
denominator returns the NaN result (`none`). -/
theorem expFitFunctor_call_none (f : ExpFitFunctor) (y : List ℝ)
    (hy : ∀ yi ∈ y, 0 < yi) (hden : f.slope_denominator_s2 = 0) :
    f.call y = none := by
  have hguard : ¬∃ yi ∈ y.take f.num_time_points, yi ≤ 0 := by
    rintro ⟨yi, hm, hle⟩
    exact absurd hle (not_le.mpr (hy yi (List.take_subset _ _ hm)))
  simp only [ExpFitFunctor.call]
  rw [if_neg hguard, if_pos hden]

/-! ## C10 -/

/-- C10: the division by the precomputed denominator is unguarded.  If all
configured time points are equal (so `slope_denominator_s2_` is 0) then on
any voxel vector with every sample positive the functor's slope is IEEE
0.0/0.0 = NaN, which passes the `slope >= 0` guard and propagates to the
output (`none`, i.e. not a defined pixel value); and conversely, whenever
at least two configured time points differ, the evaluation produces a
defined value. -/
theorem expFit_degenerate_time_points (tps : List Int) (y : List ℝ)
    (hlen : y.length = tps.length) :
    (tps ≠ [] → (∀ a ∈ tps, ∀ b ∈ tps, a = b) → (∀ yi ∈ y, 0 < yi) →
        (SetTimePoints tps).call y = none)
    ∧ ((∃ a ∈ tps, ∃ b ∈ tps, a ≠ b) →
        ((SetTimePoints tps).call y).isSome = true) := by
  constructor
  · intro hne hall hy
    apply expFitFunctor_call_none _ _ hy
    rcases htps : tps with _ | ⟨c, tl⟩
    · exact absurd htps hne
    subst htps
    exact setTimePoints_den_zero_of_all_eq hne
      (fun a ha => hall a ha c (List.mem_cons_self c tl))
  · intro hdiff
    have hden := setTimePoints_den_ne_zero_of_two_differ hdiff
    simp only [ExpFitFunctor.call]
    by_cases hguard :
        ∃ yi ∈ y.take (SetTimePoints tps).num_time_points, yi ≤ 0
    · rw [if_pos hguard]; rfl
    · rw [if_neg hguard, if_neg hden]
      split_ifs <;> rfl

/-- Witness for C10 at the concrete degenerate configuration
t = (21600 s, 21600 s), y = (1, 1). -/
theorem expFit_degenerate_time_points_witness :
    (SetTimePoints [21600, 21600]).call [1, 1] = none := by
  refine (expFit_degenerate_time_points [21600, 21600] [1, 1] rfl).1
    (by decide) (by decide) ?_
  intro yi hyi
  rcases List.mem_cons.mp hyi with rfl | hyi
  · norm_num
  · rcases List.mem_cons.mp hyi with rfl | hyi
    · norm_num
    · cases hyi

/-! ## C2 -/

open Classical in
/-- The per-voxel result exactly as claim C2 words it (a specification-side
definition, to be compared with `ExpFitFunctor.call`): 0 if any sample is
nonpositive; otherwise, with u = ln y, slope = S_tu / S_tt, 0 if
slope >= 0, else exp(mean u - slope * mean t) / (-slope). -/
noncomputable def claimTia (tps : List Int) (y : List ℝ) : ℝ :=
  if ∃ yi ∈ y, yi ≤ 0 then 0
  else
    let u := y.map Real.log
    let tbar := (tps.map fun t : Int => (t : ℝ)).sum / (tps.length : ℝ)
    let ubar := u.sum / (y.length : ℝ)
    let stt := (tps.map fun t : Int => ((t : ℝ) - tbar) * ((t : ℝ) - tbar)).sum
    let slope :=
      (List.zipWith (fun (t : Int) (ui : ℝ) => ((t : ℝ) - tbar) * (ui - ubar))
        tps u).sum / stt
    if 0 ≤ slope then 0 else Real.exp (ubar - slope * tbar) / (-slope)

/-- C2 (counterexample): the claim quantifies over every configured kernel,
but configuring the kernel with two equal time points (0 s, 0 s) and
evaluating on y = (1, 1) — all samples positive — produces the NaN pixel
(`none`), whereas the claim's formula demands the defined value
`claimTia [0, 0] [1, 1]` (the claim's slope is 0/0, which under the real
division convention is 0, hence the claim demands 0). -/
theorem expFit_claim_c2_counterexample :
    (SetTimePoints [0, 0]).call [1, 1] = none
      ∧ claimTia [0, 0] [1, 1] = 0
      ∧ (none : Option ℝ) ≠ some (claimTia [0, 0] [1, 1]) := by
  refine ⟨?_, ?_, by simp⟩
  · apply expFitFunctor_call_none
    · intro yi hyi
      rcases List.mem_cons.mp hyi with rfl | hyi
      · norm_num
      · rcases List.mem_cons.mp hyi with rfl | hyi
        · norm_num
        · cases hyi
    · exact setTimePoints_den_zero_of_all_eq (c := 0) (by decide) (by decide)
  · have hguard : ¬∃ yi ∈ ([1, 1] : List ℝ), yi ≤ 0 := by
      rintro ⟨yi, hm, hle⟩
      rcases List.mem_cons.mp hm with rfl | hm
      · norm_num at hle
      · rcases List.mem_cons.mp hm with rfl | hm
        · norm_num at hle
        · cases hm
    simp only [claimTia]
    rw [if_neg hguard]
    norm_num

/-- C2 (amended): provided at least two of the configured time points
differ (so that S_tt is nonzero) and the voxel vector has one sample per
time point, `ExpFitFunctor::operator()` returns exactly the value claim C2
describes: 0 when some sample is nonpositive, 0 when the fitted slope is
nonnegative, and the analytical integral A/b otherwise. -/
theorem expFit_call_eq_claim (tps : List Int) (y : List ℝ)
    (hlen : y.length = tps.length)
    (hdiff : ∃ a ∈ tps, ∃ b ∈ tps, a ≠ b) :
    (SetTimePoints tps).call y = some (claimTia tps y) := by
  have hden := setTimePoints_den_ne_zero_of_two_differ hdiff
  have htake : y.take (SetTimePoints tps).num_time_points = y := by
    have : (SetTimePoints tps).num_time_points = y.length := by
      simp [SetTimePoints, hlen]
    rw [this]
    exact List.take_length y
  simp only [ExpFitFunctor.call, claimTia, htake]
  simp only [SetTimePoints] at hden ⊢
  rw [hlen]
  by_cases hguard : ∃ yi ∈ y, yi ≤ 0
  · rw [if_pos hguard, if_pos hguard]
  · rw [if_neg hguard, if_neg hguard, if_neg hden]
    rw [List.zipWith_map_left, List.map_map]
    simp only [Function.comp_def]
    split_ifs <;> rfl

/-- Witness for C2 (amended) at t = (21600 s, 43200 s), y = (1, 2). -/
theorem expFit_call_eq_claim_witness :
    (SetTimePoints [21600, 43200]).call [1, 2]
      = some (claimTia [21600, 43200] [1, 2]) :=
  expFit_call_eq_claim [21600, 43200] [1, 2] rfl
    ⟨21600, by decide, 43200, by decide, by decide⟩

/-! ## C4 -/

/-- C4 (counterexample): `"2023+0500"` is a DT string containing an
embedded sign, yet `MakeSysTimeFromDicomDateTime` neither resolves it via
the suffix nor returns `FailedUtcOffsetInDateTime`: the preceding parse of
the DT components (which chokes on `"+0"` as a month window) fails first
and the function returns `FailedDateTimeExcludingUtcOffset`. -/
theorem makeSysTimeFromDicomDateTime_sign_counterexample :
    ('+' ∈ "2023+0500".toList)
      ∧ MakeSysTimeFromDicomDateTime "2023+0500".toList [] none
          = .error .failedDateTimeExcludingUtcOffset
      ∧ TimePointError.failedDateTimeExcludingUtcOffset
          ≠ TimePointError.failedUtcOffsetInDateTime := by
  refine ⟨by decide, ?_, by decide⟩
  rfl

/-- C4 (amended): once the DT string parses (excluding any UTC suffix) and
completes to a full date and time, the dispatch is exactly as claimed: if
the string contains a `'+'` or `'-'`, the suffix starting at the first
such sign is parsed as a UTC offset and used — the result is independent
of the sibling `voffset` and of the time zone, and a non-parsing suffix
yields `FailedUtcOffsetInDateTime` — while a sign-less string falls
through to `MakeSysTimeFromOffsetOrTimeZone` with `voffset` and the time
zone.  DT strings whose component parse or completion fails return that
earlier error even when they contain a sign. -/
theorem makeSysTimeFromDicomDateTime_dispatch (datetime voffset : List Char)
    (tz : Option TimeZone) (dp : DateParsed) (tp : TimeParsed)
    (date : DateComplete) (time : TimeComplete)
    (hparse : ParseDicomDateTimeExcludingUtc datetime = some (dp, tp))
    (hdate : MakeDateComplete dp = .ok date)
    (htime : MakeTimeComplete tp = .ok time) :
    (∀ pos, findFirstSign datetime = some pos →
        MakeSysTimeFromDicomDateTime datetime voffset tz
          = match ParseDicomUtcOffset (datetime.drop pos) with
            | none => .error .failedUtcOffsetInDateTime
            | some offset => MakeSysTimeFromOffset date time offset)
    ∧ (findFirstSign datetime = none →
        MakeSysTimeFromDicomDateTime datetime voffset tz
          = MakeSysTimeFromOffsetOrTimeZone date time voffset tz) := by
  constructor
  · intro pos hpos
    simp only [MakeSysTimeFromDicomDateTime, hparse, hdate, htime, hpos]
  · intro hnone
    simp only [MakeSysTimeFromDicomDateTime, hparse, hdate, htime, hnone]

/-- Witness for C4 (amended): a complete DT with suffix `"+0930"` resolves
through the embedded offset even though the sibling offset is `"-0500"`. -/
theorem makeSysTimeFromDicomDateTime_dispatch_witness :
    MakeSysTimeFromDicomDateTime "20230314094556+0930".toList
        "-0500".toList none
      = MakeSysTimeFromOffset ⟨2023, 3, 14⟩ ⟨9, 45, 56⟩ 570 := by
  have h := (makeSysTimeFromDicomDateTime_dispatch "20230314094556+0930".toList
    "-0500".toList none ⟨2023, some 3, some 14⟩ ⟨some 9, some 45, some 56⟩
    ⟨2023, 3, 14⟩ ⟨9, 45, 56⟩ (by decide) rfl rfl).1 14
    (by decide)
  rw [h, show ParseDicomUtcOffset ("20230314094556+0930".toList.drop 14)
    = some 570 from by decide]

/-! ## C6 -/

/-- A string field with no embedded newline (the round-trip precondition
on every string field). -/
def NoNewline (s : String) : Prop :=
  ∀ c ∈ s.data, c ≠ '\n'

instance (s : String) : Decidable (NoNewline s) := by
  unfold NoNewline; infer_instance

/-- The round-trip precondition on an optional numeric field: when
present, formatting followed by parsing recovers the value exactly.  This
is the formalization of "exactly representable in 6-significant-figure
decimal" for the abstracted `operator<<` / `strtod` pair. -/
def NumRoundTrip {α : Type} (wr : α → String) (rd : String → Option α) :
    Option α → Prop
  | none => True
  | some x => rd (wr x) = some x

instance {α : Type} [DecidableEq α] (wr : α → String)
    (rd : String → Option α) : (o : Option α) →
    Decidable (NumRoundTrip wr rd o)
  | none => isTrue trivial
  | some x => by unfold NumRoundTrip; infer_instance

theorem getFirstLine_eq_self {s : String} (h : NoNewline s) :
    GetFirstLine s = s := by
  unfold GetFirstLine
  rw [List.takeWhile_eq_self_iff.mpr (fun c hc => by simpa using h c hc)]

/-- Unfolding equation for the complete-record arm of `readSpectsLoop`. -/
theorem readSpectsLoop_cons {α : Type} (rd : String → Option α)
    (l0 pn rsdt aqd aqt sed setm frt tzo dc hl : String)
    (rest : List String) :
    readSpectsLoop rd (l0 :: pn :: rsdt :: aqd :: aqt :: sed :: setm :: frt
        :: tzo :: dc :: hl :: rest)
      = { patient_name := pn, radiopharmaceutical_start_date_time := rsdt,
          acquisition_date := aqd, acquisition_time := aqt,
          series_date := sed, series_time := setm,
          frame_reference_time := rd frt, timezone_offset_from_utc := tzo,
          decay_correction := dc, radionuclide_half_life := rd hl }
          :: readSpectsLoop rd rest := rfl

theorem readSpectsLoop_flatten {α : Type} (wr : α → String)
    (rd : String → Option α) (hrd : rd "" = none) :
    ∀ xs : List (Spect α),
      (∀ s ∈ xs, NoNewline s.patient_name
        ∧ NoNewline s.radiopharmaceutical_start_date_time
        ∧ NoNewline s.acquisition_date ∧ NoNewline s.acquisition_time
        ∧ NoNewline s.series_date ∧ NoNewline s.series_time
        ∧ NoNewline s.timezone_offset_from_utc
        ∧ NoNewline s.decay_correction) →
      (∀ s ∈ xs, NumRoundTrip wr rd s.frame_reference_time
        ∧ NumRoundTrip wr rd s.radionuclide_half_life) →
      readSpectsLoop rd ((xs.map (spectLines wr)).flatten) = xs := by
  intro xs
  induction xs with
  | nil => intro _ _; rfl
  | cons s tail ih =>
    intro hstr hnum
    obtain ⟨h1, h2, h3, h4, h5, h6, h7, h8⟩ := hstr s (List.mem_cons_self s tail)
    obtain ⟨h9, h10⟩ := hnum s (List.mem_cons_self s tail)
    have hrec : ∀ o : Option α, NumRoundTrip wr rd o →
        rd (optNumLine wr o) = o := by
      intro o ho
      cases o with
      | none => simpa [optNumLine] using hrd
      | some x => simpa [optNumLine] using ho
    simp only [List.map_cons, List.flatten_cons, spectLines,
      List.cons_append, List.nil_append]
    rw [readSpectsLoop_cons]
    rw [getFirstLine_eq_self h1, getFirstLine_eq_self h2,
      getFirstLine_eq_self h3, getFirstLine_eq_self h4,
      getFirstLine_eq_self h5, getFirstLine_eq_self h6,
      getFirstLine_eq_self h7, getFirstLine_eq_self h8,
      hrec _ h9, hrec _ h10]
    rw [ih (fun t ht => hstr t (List.mem_cons_of_mem s ht))
      (fun t ht => hnum t (List.mem_cons_of_mem s ht))]

/-- C6: on every vector of SPECT records whose string fields contain no
embedded newline and whose optional numeric fields survive the abstracted
format/parse pair exactly (6-significant-figure representability),
`ReadSpects` after `WriteSpects` is the identity. -/
theorem readSpects_writeSpects {α : Type} (wr : α → String)
    (rd : String → Option α) (xs : List (Spect α))
    (hrd : rd "" = none)
    (hstr : ∀ s ∈ xs, NoNewline s.patient_name
      ∧ NoNewline s.radiopharmaceutical_start_date_time
      ∧ NoNewline s.acquisition_date ∧ NoNewline s.acquisition_time
      ∧ NoNewline s.series_date ∧ NoNewline s.series_time
      ∧ NoNewline s.timezone_offset_from_utc
      ∧ NoNewline s.decay_correction)
    (hnum : ∀ s ∈ xs, NumRoundTrip wr rd s.frame_reference_time
      ∧ NumRoundTrip wr rd s.radionuclide_half_life) :
    ReadSpects rd (WriteSpects wr xs) = xs :=
  readSpectsLoop_flatten wr rd hrd xs hstr hnum

/-- A concrete kernel-evaluable formatter for the C6 witness. -/
def fmtNat (n : Nat) : String :=
  ⟨Nat.toDigits 10 n⟩

/-- A concrete kernel-evaluable numeric-line reader for the C6 witness:
like `strtod`, it converts nothing on an empty line. -/
def readNatLine (s : String) : Option Nat :=
  match s.data with
  | [] => none
  | ds => if ds.all Char.isDigit
      then some (ds.foldl (fun acc c => acc * 10 + (c.toNat - 48)) 0)
      else none

/-- Witness for C6: one concrete record through write-then-read. -/
theorem readSpects_writeSpects_witness :
    ReadSpects readNatLine (WriteSpects fmtNat
        [{ patient_name := "PAT",
           radiopharmaceutical_start_date_time := "20181105120000+0900",
           acquisition_date := "20181105", acquisition_time := "122601",
           series_date := "20181105", series_time := "122601",
           frame_reference_time := some 5,
           timezone_offset_from_utc := "+0900",
           decay_correction := "START ",
           radionuclide_half_life := some 1223 }])
      = [{ patient_name := "PAT",
           radiopharmaceutical_start_date_time := "20181105120000+0900",
           acquisition_date := "20181105", acquisition_time := "122601",
           series_date := "20181105", series_time := "122601",
           frame_reference_time := some 5,
           timezone_offset_from_utc := "+0900",
           decay_correction := "START ",
           radionuclide_half_life := some 1223 }] :=
  readSpects_writeSpects fmtNat readNatLine _ (by decide) (by decide)
    (by decide)

/-! ## Window-parser inversion lemmas (shared by C5 and C9) -/

/-- Declarative description of a two-character `from_chars` window: two
decimal digits, or a minus sign followed by a digit (value negated). -/
def TwoDigitWindow (c1 c2 : Char) (n : Int) : Prop :=
  (c1.isDigit ∧ c2.isDigit ∧ n = 10 * digitVal c1 + digitVal c2)
    ∨ (c1 = '-' ∧ c2.isDigit ∧ n = -(digitVal c2))

theorem fromCharsTwo_eq_some_iff {v : List Char} {n : Int} :
    fromCharsTwo v = some n ↔
      ∃ c1 c2 rest, v = c1 :: c2 :: rest ∧ TwoDigitWindow c1 c2 n := by
  rcases v with _ | ⟨c1, _ | ⟨c2, rest⟩⟩
  · simp [fromCharsTwo]
  · simp [fromCharsTwo]
  · simp only [fromCharsTwo]
    constructor
    · intro h
      split_ifs at h with hd hm
      · exact ⟨c1, c2, rest, rfl,
          Or.inl ⟨hd.1, hd.2, (Option.some.inj h).symm⟩⟩
      · exact ⟨c1, c2, rest, rfl,
          Or.inr ⟨hm.1, hm.2, (Option.some.inj h).symm⟩⟩
    · rintro ⟨c1', c2', rest', heq, hcase⟩
      obtain ⟨rfl, rfl, rfl⟩ : c1 = c1' ∧ c2 = c2' ∧ rest = rest' := by
        simpa using heq
      rcases hcase with ⟨hd1, hd2, rfl⟩ | ⟨hm1, hm2, rfl⟩
      · rw [if_pos ⟨hd1, hd2⟩]
      · have hnd : ¬(c1.isDigit ∧ c2.isDigit) := by
          rw [hm1]; rintro ⟨hc, -⟩; exact absurd hc (by decide)
        rw [if_neg hnd, if_pos ⟨hm1, hm2⟩]

theorem clampWindow_iff (hi : Int) (v : List Char) (n : Int) :
    (match fromCharsTwo v with
     | some m => if 0 ≤ m ∧ m ≤ hi then some m else none
     | none => none) = some n
      ↔ fromCharsTwo v = some n ∧ 0 ≤ n ∧ n ≤ hi := by
  rcases h : fromCharsTwo v with _ | m
  · simp
  · show (if 0 ≤ m ∧ m ≤ hi then some m else none) = some n
        ↔ some m = some n ∧ 0 ≤ n ∧ n ≤ hi
    split_ifs with hr
    · constructor
      · intro he
        obtain rfl := Option.some.inj he
        exact ⟨rfl, hr.1, hr.2⟩
      · rintro ⟨he, -, -⟩
        obtain rfl := Option.some.inj he
        rfl
    · constructor
      · rintro ⟨⟩
      · rintro ⟨he, h1, h2⟩
        obtain rfl := Option.some.inj he
        exact absurd ⟨h1, h2⟩ hr

theorem parseHour_iff {v : List Char} {n : Int} :
    ParseHour v = some n ↔ fromCharsTwo v = some n ∧ 0 ≤ n ∧ n ≤ 23 :=
  clampWindow_iff 23 v n

theorem parseMinute_iff {v : List Char} {n : Int} :
    ParseMinute v = some n ↔ fromCharsTwo v = some n ∧ 0 ≤ n ∧ n ≤ 59 :=
  clampWindow_iff 59 v n

theorem parseSecond_iff {v : List Char} {n : Int} :
    ParseSecond v = some n ↔ fromCharsTwo v = some n ∧ 0 ≤ n ∧ n ≤ 60 :=
  clampWindow_iff 60 v n

/-! ## C5 -/

/-- The input/output shape of a successful `ParseDicomUtcOffset` call, as
claim C5 reads after amendment: at least five characters; a leading sign;
the two character pairs at positions 1-2 and 3-4 are `from_chars`
two-digit windows giving HH in 0..23 and MM in 0..59; the output is the
signed minute count; `-0000` (a `'-'` sign with value 0) is excluded; the
result lies in [-720, 840]; characters beyond the first five are never
inspected. -/
def UtcOffsetShape (v : List Char) (o : Int) : Prop :=
  ∃ s c1 c2 c3 c4 rest, v = s :: c1 :: c2 :: c3 :: c4 :: rest
    ∧ (s = '+' ∨ s = '-')
    ∧ ∃ hh mm : Int,
        TwoDigitWindow c1 c2 hh ∧ 0 ≤ hh ∧ hh ≤ 23
        ∧ TwoDigitWindow c3 c4 mm ∧ 0 ≤ mm ∧ mm ≤ 59
        ∧ o = (if s = '-' then -(hh * 60 + mm) else hh * 60 + mm)
        ∧ ¬(s = '-' ∧ hh * 60 + mm = 0)
        ∧ -720 ≤ o ∧ o ≤ 840

/-- C5 (amended): `ParseDicomUtcOffset` succeeds exactly on the inputs of
`UtcOffsetShape`, with the signed minute count as output.  Compared with
the claim as frozen, the input need only be at least 5 characters (the
suffix after `{+,-}HHMM` is ignored) and each two-character window may
also be the `from_chars` form `-0`; the component ranges, the `-0000`
exclusion and the [-720, 840] clamp are as claimed. -/
theorem parseDicomUtcOffset_characterization (v : List Char) (o : Int) :
    ParseDicomUtcOffset v = some o ↔ UtcOffsetShape v o := by
  rcases v with _ | ⟨sign, rest⟩
  · constructor
    · intro h; simp [ParseDicomUtcOffset] at h
    · rintro ⟨s, c1, c2, c3, c4, rest', heq, -⟩; cases heq
  constructor
  · intro h
    simp only [ParseDicomUtcOffset] at h
    by_cases h5 : (sign :: rest).length < 5
    · rw [if_pos h5] at h; exact absurd h (by simp)
    rw [if_neg h5] at h
    by_cases hsgn : sign ≠ '+' ∧ sign ≠ '-'
    · rw [if_pos hsgn] at h; exact absurd h (by simp)
    rw [if_neg hsgn] at h
    rcases hh : ParseHour rest with _ | hour
    · simp [hh] at h
    simp only [hh] at h
    rcases hm : ParseMinute (rest.drop 2) with _ | minute
    · simp [hm] at h
    simp only [hm] at h
    split_ifs at h with hz hr
    obtain rfl := Option.some.inj h
    obtain ⟨hfc1, h0h, h23⟩ := parseHour_iff.mp hh
    obtain ⟨c1, c2, rest2, heq1, hw1⟩ := fromCharsTwo_eq_some_iff.mp hfc1
    subst heq1
    obtain ⟨hfc2, h0m, h59⟩ := parseMinute_iff.mp hm
    obtain ⟨c3, c4, rest3, heq2, hw2⟩ := fromCharsTwo_eq_some_iff.mp
      (by simpa using hfc2)
    subst heq2
    push_neg at hsgn hr
    refine ⟨sign, c1, c2, c3, c4, rest3, rfl, ?_, hour, minute, hw1, h0h,
      h23, hw2, h0m, h59, ?_, ?_, ?_, ?_⟩
    · by_cases hp : sign = '+'
      · exact Or.inl hp
      · exact Or.inr (hsgn hp)
    · simp [applyUtcSign]
    · rintro ⟨hs, h0⟩
      exact hz ⟨hs, by simp [applyUtcSign, hs, h0]⟩
    · have := hr.1; omega
    · have := hr.2; omega
  · rintro ⟨s, c1, c2, c3, c4, rest', heq, hsgn, hh, mm, hw1, h0h, h23, hw2,
      h0m, h59, ho, hz, hlo, hhi⟩
    obtain ⟨rfl, rfl⟩ : sign = s ∧ rest = c1 :: c2 :: c3 :: c4 :: rest' := by
      simpa using heq
    have hhour : ParseHour (c1 :: c2 :: c3 :: c4 :: rest') = some hh :=
      parseHour_iff.mpr
        ⟨fromCharsTwo_eq_some_iff.mpr ⟨c1, c2, _, rfl, hw1⟩, h0h, h23⟩
    have hmin : ParseMinute ((c1 :: c2 :: c3 :: c4 :: rest').drop 2)
        = some mm :=
      parseMinute_iff.mpr
        ⟨fromCharsTwo_eq_some_iff.mpr ⟨c3, c4, _, rfl, hw2⟩, h0m, h59⟩
    have happ : applyUtcSign sign (hh * 60 + mm) = o := by
      rw [applyUtcSign, ho]
    simp only [ParseDicomUtcOffset, hhour, hmin]
    rw [if_neg (by simp)]
    rw [if_neg (by rcases hsgn with rfl | rfl <;> simp)]
    rw [if_neg (by
      rintro ⟨hs, h0⟩
      rw [happ] at h0
      rw [if_pos hs] at ho
      exact hz ⟨hs, by omega⟩)]
    rw [if_neg (by rw [happ]; omega)]
    rw [happ]

/-- C5 (counterexample): the claim's "exactly `{+,-}HHMM`" shape is not
required: the 6-character `"+09300"` succeeds (the trailing character is
ignored), and `"--005"` succeeds with value -5 (the `from_chars` windows
`-0` and `05`), so success is not limited to a sign followed by four
digits. -/
theorem parseDicomUtcOffset_shape_counterexample :
    ParseDicomUtcOffset "+09300".toList = some 570
      ∧ "+09300".toList.length = 6
      ∧ ParseDicomUtcOffset "--005".toList = some (-5) := by
  refine ⟨by decide, by decide, by decide⟩

/-- Witness for C5 at the claim's own example `"+0930"`, output +570. -/
theorem parseDicomUtcOffset_characterization_witness :
    UtcOffsetShape "+0930".toList 570 :=
  (parseDicomUtcOffset_characterization "+0930".toList 570).mp (by decide)

/-! ## C9 -/

/-- On an input of length at least 6, `ParseDicomTime` reads the three
two-character windows and ignores everything after the sixth character. -/
theorem parseDicomTime_long (a b c d e f : Char) (rest : List Char) :
    ParseDicomTime (a :: b :: c :: d :: e :: f :: rest)
      = match ParseHour (a :: b :: c :: d :: e :: f :: rest) with
        | none => none
        | some hour =>
          match ParseMinute (c :: d :: e :: f :: rest) with
          | none => none
          | some minute =>
            match ParseSecond (e :: f :: rest) with
            | none => none
            | some second => some ⟨some hour, some minute, some second⟩ := by
  have hA1 : ¬((c :: d :: e :: f :: rest).length = 1) := by
    simp only [List.length_cons]; omega
  have hA2 : 2 ≤ (c :: d :: e :: f :: rest).length := by
    simp only [List.length_cons]; omega
  have hB1 : ¬((e :: f :: rest).length = 1) := by
    simp only [List.length_cons]; omega
  have hB2 : 2 ≤ (e :: f :: rest).length := by
    simp only [List.length_cons]; omega
  simp only [ParseDicomTime, List.drop_succ_cons, List.drop_zero,
    if_neg hA1, if_pos hA2, if_neg hB1, if_pos hB2]

/-- C9: `ParseDicomTime` is length-dispatched: lengths 1, 3 and 5 fail;
a successful 2-character parse carries no minute and no second; a
successful 4-character parse carries a minute but no second; an input of
length at least 6 is parsed exactly like its first six characters (the
fractional-second suffix is ignored) and a success carries all three
components; and every successful parse has hour in 0..23, minute (when
present) in 0..59 and second (when present) in 0..60, so out-of-range
components fail. -/
theorem parseDicomTime_length_dispatch :
    (∀ v : List Char, v.length = 1 ∨ v.length = 3 ∨ v.length = 5 →
        ParseDicomTime v = none)
    ∧ (∀ (v : List Char) (t : TimeParsed), v.length = 2 →
        ParseDicomTime v = some t → t.minute = none ∧ t.second = none)
    ∧ (∀ (v : List Char) (t : TimeParsed), v.length = 4 →
        ParseDicomTime v = some t → t.minute.isSome = true ∧ t.second = none)
    ∧ (∀ v : List Char, 6 ≤ v.length →
        ParseDicomTime v = ParseDicomTime (v.take 6))
    ∧ (∀ (v : List Char) (t : TimeParsed), 6 ≤ v.length →
        ParseDicomTime v = some t →
        t.hour.isSome = true ∧ t.minute.isSome = true
          ∧ t.second.isSome = true)
    ∧ (∀ (v : List Char) (t : TimeParsed), ParseDicomTime v = some t →
        (∀ h ∈ t.hour, 0 ≤ h ∧ h ≤ 23) ∧ (∀ m ∈ t.minute, 0 ≤ m ∧ m ≤ 59)
          ∧ (∀ s ∈ t.second, 0 ≤ s ∧ s ≤ 60)) := by
  refine ⟨?_, ?_, ?_, ?_, ?_, ?_⟩
  · intro v hv
    rcases v with _ | ⟨a, _ | ⟨b, _ | ⟨c, _ | ⟨d, _ | ⟨e, _ | ⟨f, rest⟩⟩⟩⟩⟩⟩
    · simp at hv
    · rfl
    · simp at hv
    · rcases hh : ParseHour [a, b, c] with _ | hour
      · simp [ParseDicomTime, hh]
      · simp [ParseDicomTime, hh]
    · simp at hv
    · rcases hh : ParseHour [a, b, c, d, e] with _ | hour
      · simp [ParseDicomTime, hh]
      · rcases hm : ParseMinute [c, d, e] with _ | minute
        · simp [ParseDicomTime, hh, hm]
        · simp [ParseDicomTime, hh, hm]
    · simp only [List.length_cons] at hv; omega
  · intro v t hv h
    rcases v with _ | ⟨a, _ | ⟨b, rest⟩⟩
    · simp at hv
    · simp at hv
    · obtain rfl : rest = [] :=
        List.length_eq_zero.mp (by simpa using hv)
      rcases hh : ParseHour [a, b] with _ | hour
      · simp [ParseDicomTime, hh] at h
      · simp [ParseDicomTime, hh] at h
        subst h
        exact ⟨rfl, rfl⟩
  · intro v t hv h
    rcases v with _ | ⟨a, _ | ⟨b, _ | ⟨c, _ | ⟨d, rest⟩⟩⟩⟩
    · simp at hv
    · simp at hv
    · simp at hv
    · simp at hv
    · obtain rfl : rest = [] :=
        List.length_eq_zero.mp (by simpa using hv)
      rcases hh : ParseHour [a, b, c, d] with _ | hour
      · simp [ParseDicomTime, hh] at h
      · rcases hm : ParseMinute [c, d] with _ | minute
        · simp [ParseDicomTime, hh, hm] at h
        · simp [ParseDicomTime, hh, hm] at h
          subst h
          exact ⟨rfl, rfl⟩
  · intro v hv
    rcases v with _ | ⟨a, _ | ⟨b, _ | ⟨c, _ | ⟨d, _ | ⟨e, _ | ⟨f, rest⟩⟩⟩⟩⟩⟩
    · simp at hv
    · simp at hv
    · simp at hv
    · simp at hv
    · simp at hv
    · simp at hv
    · rw [show (a :: b :: c :: d :: e :: f :: rest).take 6
          = [a, b, c, d, e, f] from by simp]
      rw [parseDicomTime_long a b c d e f rest,
        parseDicomTime_long a b c d e f []]
      rfl
  · intro v t hv h
    rcases v with _ | ⟨a, _ | ⟨b, _ | ⟨c, _ | ⟨d, _ | ⟨e, _ | ⟨f, rest⟩⟩⟩⟩⟩⟩
    · simp at hv
    · simp at hv
    · simp at hv
    · simp at hv
    · simp at hv
    · simp at hv
    · rw [parseDicomTime_long a b c d e f rest] at h
      rcases hh : ParseHour (a :: b :: c :: d :: e :: f :: rest) with _ | hour
      · simp [hh] at h
      rcases hm : ParseMinute (c :: d :: e :: f :: rest) with _ | minute
      · simp [hh, hm] at h
      rcases hs : ParseSecond (e :: f :: rest) with _ | second
      · simp [hh, hm, hs] at h
      simp only [hh, hm, hs] at h
      obtain rfl := Option.some.inj h
      exact ⟨rfl, rfl, rfl⟩
  · intro v t h
    simp only [ParseDicomTime] at h
    rcases hh : ParseHour v with _ | hour
    · simp [hh] at h
    simp only [hh] at h
    obtain ⟨-, h0h, h23⟩ := parseHour_iff.mp hh
    by_cases hc1 : (List.drop 2 v).length = 1
    · rw [if_pos hc1] at h; exact absurd h (by simp)
    rw [if_neg hc1] at h
    by_cases hc2 : 2 ≤ (List.drop 2 v).length
    case neg =>
      rw [if_neg hc2] at h
      obtain rfl := Option.some.inj h
      refine ⟨?_, ?_, ?_⟩ <;> simp_all
    rw [if_pos hc2] at h
    rcases hm : ParseMinute (List.drop 2 v) with _ | minute
    · simp [hm] at h
    simp only [hm] at h
    obtain ⟨-, h0m, h59⟩ := parseMinute_iff.mp hm
    by_cases hc3 : (List.drop 2 (List.drop 2 v)).length = 1
    · rw [if_pos hc3] at h; exact absurd h (by simp)
    rw [if_neg hc3] at h
    by_cases hc4 : 2 ≤ (List.drop 2 (List.drop 2 v)).length
    case neg =>
      rw [if_neg hc4] at h
      obtain rfl := Option.some.inj h
      refine ⟨?_, ?_, ?_⟩ <;> simp_all
    rw [if_pos hc4] at h
    rcases hs : ParseSecond (List.drop 2 (List.drop 2 v)) with _ | second
    · rw [hs] at h; exact absurd h (by simp)
    rw [hs] at h
    simp only [] at h
    obtain ⟨-, h0s, h60⟩ := parseSecond_iff.mp hs
    obtain rfl := Option.some.inj h
    refine ⟨?_, ?_, ?_⟩ <;> simp_all

/-- Witness for C9 at the concrete odd-length input `"100"`. -/
theorem parseDicomTime_length_dispatch_witness :
    ParseDicomTime "100".toList = none :=
  parseDicomTime_length_dispatch.1 "100".toList (Or.inr (Or.inl (by decide)))
